import Mathlib

/-!
Shallow embedding of the version-compare engine of hzzhaoyang/version-compare-tool2.

The embedding covers:
* the task-identifier extraction from commit messages
  (GitLabManager.task_pattern and extract_commit_messages_with_tasks,
  src/src/gitlab/gitlab_manager.py),
* the classification of two refs' task sets
  (TaskLossDetector._analyze_version_tasks and detect_missing_tasks,
  src/src/core/task_detector.py),
* the page-count probe and the concurrent page fetch
  (GitLabManager._detect_total_pages, _fetch_single_page,
  _fetch_all_pages_concurrent, get_all_tag_commits_concurrent),
* the optimized manager's paging probe, fetch and request cache
  (OptimizedGitLabManager._get_commits_page_info, _find_last_page,
  get_all_branch_commits_concurrent, extract_branch_tasks_local,
  src/src/gitlab/optimized_gitlab_manager.py; RequestCacheManager,
  src/src/core/cache_manager.py; OptimizedTaskLossDetector,
  src/src/core/optimized_task_detector.py).

Python dicts and sets are modelled as Finsets; the commit-identity map
(key string to task id) is a Finset of pairs.  Network responses are
modelled as explicit response functions supplied as parameters; the
while-loops of the binary search and the regex scan are modelled with a
fuel argument large enough to cover every reachable iteration, keeping
every definition kernel-executable.
-/

/-- Characters stripped by Python str.strip(): space, tab, newline,
carriage return, vertical tab, form feed. -/
def isPySpace (c : Char) : Bool :=
  c = ' ' || c = '\t' || c = '\n' || c = '\r' || c = '\x0b' || c = '\x0c'

/-- Python str.strip(): remove leading and trailing whitespace. -/
def pyStrip (s : String) : String :=
  ⟨((s.data.dropWhile isPySpace).reverse.dropWhile isPySpace).reverse⟩

/-- Python message.split(chr(10))[0]: the text up to the first newline. -/
def upToNewline (s : String) : String :=
  ⟨s.data.takeWhile (· ≠ '\n')⟩

/-- Match one alternative of the task regex at the start of the character
list: the literal pattern text followed by one or more digits, digits taken
greedily.  Returns the matched identifier and the remaining characters. -/
def patMatchAt (pat : String) (s : List Char) : Option (String × List Char) :=
  if s.take pat.data.length = pat.data then
    let ds := (s.drop pat.data.length).takeWhile Char.isDigit
    if ds = [] then none
    else some (⟨pat.data ++ ds⟩, (s.drop pat.data.length).dropWhile Char.isDigit)
  else none

/-- Try the regex alternatives in order at the start of the list, as the
alternation of re.compile does at a single position. -/
def patsMatchAt : List String → List Char → Option (String × List Char)
  | [], _ => none
  | p :: ps, s =>
    match patMatchAt p s with
    | some r => some r
    | none => patsMatchAt ps s

/-- Scan of re.findall: move left to right, at each position try to match,
on a match consume it and continue after it.  The fuel argument is the
length of the scanned text, enough for every step since each step consumes
at least one character. -/
def findTasksGo (pats : List String) : Nat → List Char → List String
  | _, [] => []
  | 0, _ :: _ => []
  | fuel + 1, c :: cs =>
    match patsMatchAt pats (c :: cs) with
    | some (t, rest) => t :: findTasksGo pats fuel rest
    | none => findTasksGo pats fuel cs

/-- re.findall of the task pattern over a string. -/
def findTasks (pats : List String) (s : String) : List String :=
  findTasksGo pats s.data.length s.data

/-- GitLabManager.task_pattern alternatives, in regex order:
GALAXY- digits, OP- digits. -/
def taskPats : List String := ["GALAXY-", "OP-"]

/-- OptimizedGitLabManager.task_pattern alternative: GALAXY- digits.
The Python pattern captures the digits and the caller rebuilds the full
GALAXY- identifier, which equals the full match kept here. -/
def galaxyPats : List String := ["GALAXY-"]

/-- CommitRecord: the simplified commit dict kept by _fetch_single_page. -/
structure Commit where
  id : String
  message : String
  author_name : String
  committed_date : String
  short_id : String
deriving DecidableEq

/-- The entries one commit contributes to the commit-task map of
extract_commit_messages_with_tasks: the message is stripped, every task id
found in the whole message yields the pair (task id ++ two bars ++ first
line of the stripped message, task id). -/
def commitEntries (c : Commit) : Finset (String × String) :=
  let message := pyStrip c.message
  let first_line := pyStrip (upToNewline message)
  ((findTasks taskPats message).map (fun t => (t ++ "||" ++ first_line, t))).toFinset

/-- extract_commit_messages_with_tasks: fold the commits in order into the
commit-task map, modelled as the set of its (key, value) pairs. -/
def extractCommitMessagesWithTasks (commits : List Commit) : Finset (String × String) :=
  commits.foldl (fun acc c => acc ∪ commitEntries c) ∅

/-- extract_tasks_from_commits: the value set of the commit-task map. -/
def extractTasksFromCommits (commits : List Commit) : Finset String :=
  (extractCommitMessagesWithTasks commits).image (·.2)

/-- Key set of a commit-task map (old_messages, new_messages). -/
def keySetF (A : Finset (String × String)) : Finset String := A.image (·.1)

/-- Value set of a commit-task map (old_tasks, new_tasks). -/
def taskSetF (A : Finset (String × String)) : Finset String := A.image (·.2)

/-- The entries of A whose key is absent from B: the (message, task) pairs
behind missing_messages and the missing_commit_tasks grouping loop. -/
def missPairs (A B : Finset (String × String)) : Finset (String × String) :=
  A.filter (fun p => p.1 ∉ keySetF B)

/-- The key set of missing_commit_tasks: tasks with at least one missing
commit message. -/
def missTasks (A B : Finset (String × String)) : Finset String :=
  (missPairs A B).image (·.2)

/-- completely_missing_tasks: tasks with a missing message that are absent
from the other side's task set. -/
def completelyMissingF (A B : Finset (String × String)) : Finset String :=
  (missTasks A B).filter (· ∉ taskSetF B)

/-- Key set of partially_missing_tasks: tasks with a missing message that
are still present in the other side's task set. -/
def partlyKeysF (A B : Finset (String × String)) : Finset String :=
  (missTasks A B).filter (· ∈ taskSetF B)

/-- The list of missing commit messages recorded for one task in
missing_commit_tasks, as a set. -/
def detailF (A B : Finset (String × String)) (t : String) : Finset String :=
  ((missPairs A B).filter (·.2 = t)).image (·.1)

/-- All keys of one task in a commit-task map (the inner loop that collects
task_commits for a completely new task). -/
def taskKeysF (A : Finset (String × String)) (t : String) : Finset String :=
  (A.filter (·.2 = t)).image (·.1)

/-- The detailed_analysis dict of the success branch of
_analyze_version_tasks.  The two partial maps are sets of
(task, message set) pairs. -/
structure DetailedAnalysis where
  completely_missing_tasks : Finset String
  partly_missing_tasks : Finset (String × Finset String)
  completely_new_tasks : Finset String
  partly_new_tasks : Finset (String × Finset String)
  missing_commit_messages : Finset String
  new_commit_messages : Finset String
deriving DecidableEq

/-- The result dict of _analyze_version_tasks.  new_features models the
new_features_with_commits dict of the success branch (the empty set in the
early-return branches, where Python stores an empty set).  The timing and
count fields are dropped.  detailed_analysis is present only in the
success branch. -/
structure AnalyzeResult where
  old_tasks : Finset String
  new_tasks : Finset String
  missing_tasks : Finset String
  new_features : Finset (String × Finset String)
  common_tasks : Finset String
  analysis : String
  error : Option String
  detailed_analysis : Option DetailedAnalysis
deriving DecidableEq

/-- TaskLossDetector._analyze_version_tasks on the two fetched commit
lists: the three early-return branches for empty fetches, then the
message-level comparison of the success branch. -/
def analyzeVersionTasks (old_commits new_commits : List Commit) : AnalyzeResult :=
  if old_commits = [] ∧ new_commits = [] then
    { old_tasks := ∅, new_tasks := ∅, missing_tasks := ∅, new_features := ∅,
      common_tasks := ∅, analysis := "both_versions_failed",
      error := some "无法获取两个版本的commits", detailed_analysis := none }
  else if old_commits = [] then
    { old_tasks := ∅, new_tasks := ∅, missing_tasks := ∅, new_features := ∅,
      common_tasks := ∅, analysis := "old_version_failed",
      error := some "无法获取旧版本的commits", detailed_analysis := none }
  else if new_commits = [] then
    { old_tasks := ∅, new_tasks := ∅, missing_tasks := ∅, new_features := ∅,
      common_tasks := ∅, analysis := "new_version_failed",
      error := some "无法获取新版本的commits", detailed_analysis := none }
  else
    let A := extractCommitMessagesWithTasks old_commits
    let B := extractCommitMessagesWithTasks new_commits
    { old_tasks := taskSetF A,
      new_tasks := taskSetF B,
      missing_tasks := completelyMissingF A B ∪ partlyKeysF A B,
      new_features :=
        (taskSetF B \ taskSetF A).image (fun t => (t, taskKeysF B t)) ∪
          (partlyKeysF B A).image (fun t => (t, detailF B A t)),
      common_tasks := taskSetF A ∩ taskSetF B,
      analysis := "success",
      error := none,
      detailed_analysis := some
        { completely_missing_tasks := completelyMissingF A B,
          partly_missing_tasks := (partlyKeysF A B).image (fun t => (t, detailF A B t)),
          completely_new_tasks := taskSetF B \ taskSetF A,
          partly_new_tasks := (partlyKeysF B A).image (fun t => (t, detailF B A t)),
          missing_commit_messages := keySetF A \ keySetF B,
          new_commit_messages := keySetF B \ keySetF A } }

/-- detect_missing_tasks passes the analysis result through unchanged
(the claims only concern the passed-through fields). -/
def detectMissingTasks (old_commits new_commits : List Commit) : AnalyzeResult :=
  analyzeVersionTasks old_commits new_commits

/-- The task ids reported as new: the key set of new_features_with_commits. -/
def newFeatureKeys (r : AnalyzeResult) : Finset String :=
  r.new_features.image (·.1)


/-- One HTTP response of the commit-listing endpoint: a 200 body, a non-200
status code, or a network exception. -/
inductive HttpResult where
  | ok (commits : List Commit)
  | status (code : Nat)
  | netError (msg : String)
deriving DecidableEq

/-- GitLabManager._fetch_single_page retry loop over the list of remaining
attempt indexes: a 200 response returns its commits, a 404 returns the
empty list at once, any other status or an exception moves to the next
attempt, and the empty list is returned when attempts run out. -/
def fetchSingleAux (respond : Nat → HttpResult) : List Nat → List Commit
  | [] => []
  | a :: rest =>
    match respond a with
    | .ok cs => cs
    | .status code => if code = 404 then [] else fetchSingleAux respond rest
    | .netError _ => fetchSingleAux respond rest

/-- GitLabManager._fetch_single_page with retry_attempts = 3, over the
per-attempt responses of one (ref, page) request. -/
def fetchSinglePage (respond : Nat → HttpResult) : List Commit :=
  fetchSingleAux respond [0, 1, 2]

/-- The while-loop of the binary search shared by
GitLabManager._detect_total_pages and
OptimizedGitLabManager._find_last_page: midpoint page non-empty moves the
lower bound up and records the page, empty moves the upper bound down.
The fuel argument exceeds the iteration count of every reachable call,
since the window right + 1 - left shrinks on every iteration. -/
def bsearchGo (fetchPage : Int → List Commit) : Nat → Int → Int → Int → Int
  | 0, _, _, lastValid => lastValid
  | fuel + 1, left, right, lastValid =>
    if left ≤ right then
      let mid := (left + right) / 2
      if fetchPage mid ≠ [] then bsearchGo fetchPage fuel (mid + 1) right mid
      else bsearchGo fetchPage fuel left (mid - 1) lastValid
    else lastValid

/-- GitLabManager._detect_total_pages: empty first page means 0 pages, a
short first page means 1 page, otherwise binary search for the last
non-empty page over the window 1..500. -/
def detectTotalPages (fetchPage : Int → List Commit) (per_page : Nat) : Int :=
  let first_page := fetchPage 1
  if first_page = [] then 0
  else if first_page.length < per_page then 1
  else bsearchGo fetchPage 501 1 500 1

/-- The page numbers 1..n dispatched by the concurrent fetchers. -/
def intPages (n : Int) : List Int :=
  (List.range n.toNat).map (fun (i : Nat) => (i : Int) + 1)

/-- GitLabManager._fetch_all_pages_concurrent: every page's commits are
concatenated; a failed page contributes its empty result and is only
counted in a log line, leaving no trace in the returned list. -/
def fetchAllPagesConcurrent (fetchPage : Int → List Commit) (total_pages : Int) : List Commit :=
  ((intPages total_pages).map fetchPage).flatten

/-- GitLabManager.get_all_tag_commits_concurrent: probe the page count,
return the empty list when it is 0, otherwise fetch all pages. -/
def getAllTagCommitsConcurrent (fetchPage : Int → List Commit) (per_page : Nat) : List Commit :=
  let total_pages := detectTotalPages fetchPage per_page
  if total_pages = 0 then [] else fetchAllPagesConcurrent fetchPage total_pages

/-- The paging info returned by OptimizedGitLabManager._get_commits_page_info. -/
structure PageInfo where
  total_pages : Int
  total_commits : Int
  per_page : Nat
deriving DecidableEq

/-- The commits of a page response: the body of a 200 response, the empty
list for any failure. -/
def okCommits (respond : Int → HttpResult) (page : Int) : List Commit :=
  match respond page with
  | .ok cs => cs
  | .status _ => []
  | .netError _ => []

/-- OptimizedGitLabManager._find_last_page: binary search over 1..1000;
a non-200 response or an exception is treated like an empty page. -/
def findLastPage (respond : Int → HttpResult) : Int :=
  bsearchGo (okCommits respond) 1001 1 1000 1

/-- OptimizedGitLabManager._get_commits_page_info: one request for page 1;
200 with no commits gives 0 pages, a short page gives 1 page, a full page
triggers the binary search and an estimated commit total; 401, 404, any
other status and any exception all give none. -/
def getCommitsPageInfo (respond : Int → HttpResult) (per_page : Nat) : Option PageInfo :=
  match respond 1 with
  | .ok first_page_commits =>
    if first_page_commits.length = 0 then
      some { total_pages := 0, total_commits := 0, per_page := per_page }
    else if first_page_commits.length < per_page then
      some { total_pages := 1, total_commits := first_page_commits.length, per_page := per_page }
    else
      let max_page := findLastPage respond
      some { total_pages := max_page, total_commits := max_page * per_page, per_page := per_page }
  | .status _ => none
  | .netError _ => none

/-- OptimizedGitLabManager._fetch_all_pages_concurrent: concatenate the
bodies of the successful pages; a page that fails after its retries
contributes nothing and is only counted in a log line. -/
def fetchAllPagesOpt (respond : Int → HttpResult) (total_pages : Int) : List Commit :=
  ((intPages total_pages).map (okCommits respond)).flatten

/-- RequestCacheManager.cache: key-value pairs in insertion order. -/
abbrev VcCache := List (String × List Commit)

/-- RequestCacheManager.get. -/
def cacheGet (cache : VcCache) (key : String) : Option (List Commit) :=
  (cache.find? (·.1 = key)).map (·.2)

/-- RequestCacheManager.set: overwrite an existing key, append a new one. -/
def cacheSet (cache : VcCache) (key : String) (value : List Commit) : VcCache :=
  if (cache.find? (·.1 = key)).isSome then
    cache.map (fun p => if p.1 = key then (key, value) else p)
  else cache ++ [(key, value)]

/-- OptimizedGitLabManager.get_all_branch_commits_concurrent: consult the
request cache, otherwise probe the paging info and fetch every page, and
cache a non-empty result.  The network is the respond function of the
source, indexed by branch and page.  No branch of this method clears the
cache. -/
def getAllBranchCommitsConcurrent (source : String → Int → HttpResult) (cache : VcCache)
    (branch_name : String) (per_page : Nat) : List Commit × VcCache :=
  match cacheGet cache ("branch_commits:" ++ branch_name) with
  | some cached_commits => (cached_commits, cache)
  | none =>
    match getCommitsPageInfo (source branch_name) per_page with
    | none => ([], cache)
    | some info =>
      let all_commits := fetchAllPagesOpt (source branch_name) info.total_pages
      if all_commits = [] then (all_commits, cache)
      else (all_commits, cacheSet cache ("branch_commits:" ++ branch_name) all_commits)

/-- OptimizedGitLabManager.extract_branch_tasks_local: the set of GALAXY
identifiers found in the raw commit messages. -/
def extractBranchTasksLocal (commits : List Commit) : Finset String :=
  commits.foldl (fun acc c => acc ∪ (findTasks galaxyPats c.message).toFinset) ∅

/-- The result dict of OptimizedTaskLossDetector._analyze_version_tasks
(timing fields dropped). -/
structure OptAnalyzeResult where
  old_tasks : Finset String
  new_tasks : Finset String
  missing_tasks : Finset String
  new_features : Finset String
  common_tasks : Finset String
  analysis : String
  error : Option String
deriving DecidableEq

/-- OptimizedTaskLossDetector._analyze_version_tasks: fetch both refs
through the shared request cache (the two concurrent fetches are modelled
old ref first, new ref second), then compare the plain task sets.  The
cache resulting from the two fetches is returned alongside the result. -/
def analyzeVersionTasksOpt (source : String → Int → HttpResult) (cache : VcCache)
    (old_version new_version : String) (per_page : Nat) : OptAnalyzeResult × VcCache :=
  let fetchOld := getAllBranchCommitsConcurrent source cache old_version per_page
  let old_commits := fetchOld.1
  let fetchNew := getAllBranchCommitsConcurrent source fetchOld.2 new_version per_page
  let new_commits := fetchNew.1
  let cache2 := fetchNew.2
  if old_commits = [] ∧ new_commits = [] then
    ({ old_tasks := ∅, new_tasks := ∅, missing_tasks := ∅, new_features := ∅,
       common_tasks := ∅, analysis := "both_versions_failed",
       error := some "无法获取两个版本的commits" }, cache2)
  else if old_commits = [] then
    ({ old_tasks := ∅, new_tasks := ∅, missing_tasks := ∅, new_features := ∅,
       common_tasks := ∅, analysis := "old_version_failed",
       error := some "无法获取旧版本的commits" }, cache2)
  else if new_commits = [] then
    ({ old_tasks := ∅, new_tasks := ∅, missing_tasks := ∅, new_features := ∅,
       common_tasks := ∅, analysis := "new_version_failed",
       error := some "无法获取新版本的commits" }, cache2)
  else
    let old_tasks := extractBranchTasksLocal old_commits
    let new_tasks := extractBranchTasksLocal new_commits
    ({ old_tasks := old_tasks, new_tasks := new_tasks,
       missing_tasks := old_tasks \ new_tasks,
       new_features := new_tasks \ old_tasks,
       common_tasks := old_tasks ∩ new_tasks,
       analysis := "success", error := none }, cache2)

/-- OptimizedTaskLossDetector.detect_missing_tasks_optimized: runs the
analysis and passes the result through.  No statement of this method
touches the cache, so the cache state is returned exactly as the
analysis left it. -/
def detectMissingTasksOptimized (source : String → Int → HttpResult) (cache : VcCache)
    (old_version new_version : String) (per_page : Nat) : OptAnalyzeResult × VcCache :=
  analyzeVersionTasksOpt source cache old_version new_version per_page

/-- A commit record whose content never matters to the paging claims. -/
def dummyCommit : Commit :=
  { id := "", message := "", author_name := "", committed_date := "", short_id := "" }

/-- Number of commits a stub ref with true commit count n serves on a page
at page size per_page: the page-size slice of what remains. -/
def stubCount (n per_page : Nat) (page : Int) : Nat :=
  if page ≤ 0 then 0 else min per_page (n - (page.toNat - 1) * per_page)

/-- A stub commit source serving exactly n commits at page size per_page,
the stub CommitSource of the spec's testable properties. -/
def stubFetchPage (n per_page : Nat) (page : Int) : List Commit :=
  List.replicate (stubCount n per_page page) dummyCommit


/-- Commit records used in the concrete scenarios. -/
def cmG1 : Commit :=
  { id := "a1", message := "GALAXY-1 step one", author_name := "ann",
    committed_date := "2024-01-01T00:00:00Z", short_id := "a1" }

def cmG1b : Commit :=
  { id := "b1", message := "GALAXY-1 step two", author_name := "bob",
    committed_date := "2024-01-02T00:00:00Z", short_id := "b1" }

def cmG1c : Commit :=
  { id := "c1", message := "GALAXY-1 step three", author_name := "cal",
    committed_date := "2024-01-03T00:00:00Z", short_id := "c1" }

def cmG3one : Commit :=
  { id := "d1", message := "GALAXY-3 step one", author_name := "dee",
    committed_date := "2024-01-04T00:00:00Z", short_id := "d1" }

def cmG3two : Commit :=
  { id := "d2", message := "GALAXY-3 step two", author_name := "dee",
    committed_date := "2024-01-05T00:00:00Z", short_id := "d2" }

def cmP3one : Commit :=
  { id := "e1", message := "PROJ-3 step one", author_name := "eva",
    committed_date := "2024-01-06T00:00:00Z", short_id := "e1" }

def cmP3two : Commit :=
  { id := "e2", message := "PROJ-3 step two", author_name := "eva",
    committed_date := "2024-01-07T00:00:00Z", short_id := "e2" }

def cmPlain : Commit :=
  { id := "f1", message := "hello world", author_name := "fay",
    committed_date := "2024-01-08T00:00:00Z", short_id := "f1" }

def cmG1cp : Commit :=
  { id := "g9", message := "GALAXY-1 step one\n\n(cherry picked from commit abc123)",
    author_name := "gil", committed_date := "2024-02-01T00:00:00Z", short_id := "g9" }

def cmA : Commit :=
  { id := "h1", message := "GALAXY-1 alpha", author_name := "hal",
    committed_date := "2024-01-09T00:00:00Z", short_id := "h1" }

def cmB : Commit :=
  { id := "h2", message := "GALAXY-2 beta", author_name := "hal",
    committed_date := "2024-01-10T00:00:00Z", short_id := "h2" }
/-- The detailed analysis computed in the amended C2 scenario. -/
def c2detail : DetailedAnalysis :=
  { completely_missing_tasks := ∅,
        partly_missing_tasks := {("GALAXY-3", {"GALAXY-3||GALAXY-3 step two"})},
        completely_new_tasks := ∅, partly_new_tasks := ∅,
        missing_commit_messages := {"GALAXY-3||GALAXY-3 step two"},
        new_commit_messages := ∅ }

/-- The detailed analysis computed in the C6 concrete comparison. -/
def c6detail : DetailedAnalysis :=
  { completely_missing_tasks := ∅,
    partly_missing_tasks := {("GALAXY-1", {"GALAXY-1||GALAXY-1 step two"})},
    completely_new_tasks := ∅,
    partly_new_tasks := {("GALAXY-1", {"GALAXY-1||GALAXY-1 step three"})},
    missing_commit_messages := {"GALAXY-1||GALAXY-1 step two"},
    new_commit_messages := {"GALAXY-1||GALAXY-1 step three"} }

/-- A commit source for the first comparison of the C9 scenario: both
branches hold one GALAXY-1 commit. -/
def c9source1 : String → Int → HttpResult := fun branch page =>
  if page = 1 then
    if branch = "v1" then .ok [cmA] else if branch = "v2" then .ok [cmA] else .ok []
  else .ok []

/-- The same project at the time of a later comparison: branch v2 has
gained a GALAXY-2 commit. -/
def c9source2 : String → Int → HttpResult := fun branch page =>
  if page = 1 then
    if branch = "v1" then .ok [cmA] else if branch = "v2" then .ok [cmA, cmB] else .ok []
  else .ok []

/-- A task identifier contains no bar character, so the bars of a
commit-identity key separate the identifier from the first line
unambiguously. -/
def NoBar (s : String) : Prop := '|' ∉ s.data

/-- Well-formedness of a commit-task map: every entry's key is its value
followed by the two bars and some first line, and the value has no bar. -/
def WFIndex (A : Finset (String × String)) : Prop :=
  ∀ p ∈ A, ∃ l : String, p.1 = p.2 ++ "||" ++ l ∧ NoBar p.2

example : findTasks taskPats "GALAXY-12 and OP-3 done" = ["GALAXY-12", "OP-3"] := by decide
example : findTasks taskPats "PROJ-3 step one" = [] := by decide
example : findTasks taskPats "xOP-GALAXY-5" = ["GALAXY-5"] := by decide

example : detectTotalPages (stubFetchPage 200 100) 100 = 2 := by decide
example : detectTotalPages (stubFetchPage 0 100) 100 = 0 := by decide
example : detectTotalPages (stubFetchPage 7 100) 100 = 1 := by decide
example : detectTotalPages (stubFetchPage 101 100) 100 = 2 := by decide
example : detectTotalPages (stubFetchPage 50001 100) 100 = 500 := by decide

theorem barSplit : ∀ (a b x y : List Char), '|' ∉ a → '|' ∉ b →
    a ++ '|' :: '|' :: x = b ++ '|' :: '|' :: y → a = b := by
  intro a
  induction a with
  | nil =>
    intro b x y _ hb h
    cases b with
    | nil => rfl
    | cons d bs =>
      exfalso
      simp only [List.nil_append, List.cons_append, List.cons.injEq] at h
      exact hb (h.1 ▸ List.mem_cons_self d bs)
  | cons c as ih =>
    intro b x y ha hb h
    cases b with
    | nil =>
      exfalso
      simp only [List.nil_append, List.cons_append, List.cons.injEq] at h
      exact ha (h.1 ▸ List.mem_cons_self c as)
    | cons d bs =>
      simp only [List.cons_append, List.cons.injEq] at h
      have hrest := ih bs x y (fun hm => ha (List.mem_cons_of_mem c hm))
        (fun hm => hb (List.mem_cons_of_mem d hm)) h.2
      rw [h.1, hrest]

theorem string_data_inj {a b : String} (h : a.data = b.data) : a = b := by
  cases a; cases b; simp_all

/-- Two well-formed keys agree on their task exactly when both parse the
key the same way: the part before the first two bars is the task id. -/
theorem keyInj {t1 t2 l1 l2 : String} (h1 : NoBar t1) (h2 : NoBar t2)
    (h : t1 ++ "||" ++ l1 = t2 ++ "||" ++ l2) : t1 = t2 := by
  have hd : t1.data ++ '|' :: '|' :: l1.data = t2.data ++ '|' :: '|' :: l2.data := by
    have := congrArg String.data h
    simpa [String.data_append] using this
  exact string_data_inj (barSplit _ _ _ _ h1 h2 hd)

theorem patMatchAt_shape {pat : String} {s : List Char} {t : String} {rest : List Char}
    (h : patMatchAt pat s = some (t, rest)) :
    ∃ ds, t.data = pat.data ++ ds ∧ ∀ c ∈ ds, c.isDigit := by
  simp only [patMatchAt] at h
  split at h
  · split at h
    · exact absurd h (by simp)
    · simp only [Option.some.injEq, Prod.mk.injEq] at h
      obtain ⟨h1, -⟩ := h
      refine ⟨(s.drop pat.data.length).takeWhile Char.isDigit, ?_, ?_⟩
      · rw [← h1]
      · intro c hc
        exact List.mem_takeWhile_imp hc
  · exact absurd h (by simp)

theorem patsMatchAt_shape : ∀ (pats : List String) (s : List Char) (t : String)
    (rest : List Char), patsMatchAt pats s = some (t, rest) →
    ∃ p ∈ pats, ∃ ds, t.data = p.data ++ ds ∧ ∀ c ∈ ds, c.isDigit := by
  intro pats
  induction pats with
  | nil => intro s t rest h; simp [patsMatchAt] at h
  | cons p ps ih =>
    intro s t rest h
    rw [patsMatchAt] at h
    cases hm : patMatchAt p s with
    | some r =>
      rw [hm] at h
      obtain ⟨t', rest'⟩ := r
      obtain ⟨h1, h2⟩ := Prod.mk.injEq .. ▸ (Option.some.inj h)
      obtain ⟨ds, hds, hdig⟩ := patMatchAt_shape hm
      exact ⟨p, List.mem_cons_self p ps, ds, h1 ▸ hds, hdig⟩
    | none =>
      rw [hm] at h
      obtain ⟨q, hq, hrest⟩ := ih s t rest h
      exact ⟨q, List.mem_cons_of_mem p hq, hrest⟩

theorem findTasksGo_shape (pats : List String) : ∀ (fuel : Nat) (s : List Char) (t : String),
    t ∈ findTasksGo pats fuel s →
    ∃ p ∈ pats, ∃ ds, t.data = p.data ++ ds ∧ ∀ c ∈ ds, c.isDigit := by
  intro fuel
  induction fuel with
  | zero =>
    intro s t ht
    cases s with
    | nil => simp [findTasksGo] at ht
    | cons c cs => simp [findTasksGo] at ht
  | succ n ih =>
    intro s t ht
    cases s with
    | nil => simp [findTasksGo] at ht
    | cons c cs =>
      rw [findTasksGo] at ht
      cases hm : patsMatchAt pats (c :: cs) with
      | some r =>
        rw [hm] at ht
        obtain ⟨t', rest⟩ := r
        rcases List.mem_cons.mp ht with h | h
        · exact h ▸ patsMatchAt_shape pats (c :: cs) t' rest hm
        · exact ih rest t h
      | none =>
        rw [hm] at ht
        exact ih cs t ht

theorem findTasks_taskPats_noBar {s : String} {t : String}
    (h : t ∈ findTasks taskPats s) : NoBar t := by
  obtain ⟨p, hp, ds, hds, hdig⟩ := findTasksGo_shape taskPats s.data.length s.data t h
  intro hbar
  rw [hds] at hbar
  rcases List.mem_append.mp hbar with hb | hb
  · simp only [taskPats, List.mem_cons, List.not_mem_nil, or_false] at hp
    rcases hp with rfl | rfl
    · exact absurd hb (by decide)
    · exact absurd hb (by decide)
  · have := hdig _ hb
    simp at this

theorem commitEntries_wf {c : Commit} {p : String × String} (h : p ∈ commitEntries c) :
    ∃ l : String, p.1 = p.2 ++ "||" ++ l ∧ NoBar p.2 := by
  unfold commitEntries at h
  rw [List.mem_toFinset, List.mem_map] at h
  obtain ⟨t, ht, hp⟩ := h
  refine ⟨pyStrip (upToNewline (pyStrip c.message)), ?_, ?_⟩
  · rw [← hp]
  · rw [← hp]
    exact findTasks_taskPats_noBar ht

theorem extract_foldl_acc : ∀ (l : List Commit) (acc : Finset (String × String)),
    l.foldl (fun a c => a ∪ commitEntries c) acc = acc ∪ extractCommitMessagesWithTasks l := by
  intro l
  induction l with
  | nil => intro acc; simp [extractCommitMessagesWithTasks]
  | cons c cs ih =>
    intro acc
    simp only [extractCommitMessagesWithTasks, List.foldl_cons] at *
    rw [ih (acc ∪ commitEntries c), ih (∅ ∪ commitEntries c)]
    simp [Finset.union_assoc]

theorem extract_cons (c : Commit) (l : List Commit) :
    extractCommitMessagesWithTasks (c :: l) =
      commitEntries c ∪ extractCommitMessagesWithTasks l := by
  simp only [extractCommitMessagesWithTasks, List.foldl_cons]
  rw [extract_foldl_acc]
  simp only [Finset.empty_union]
  rfl

theorem extract_append (l1 l2 : List Commit) :
    extractCommitMessagesWithTasks (l1 ++ l2) =
      extractCommitMessagesWithTasks l1 ∪ extractCommitMessagesWithTasks l2 := by
  simp only [extractCommitMessagesWithTasks, List.foldl_append]
  rw [extract_foldl_acc]
  rfl

theorem extract_wf (l : List Commit) : WFIndex (extractCommitMessagesWithTasks l) := by
  induction l with
  | nil => intro p hp; simp [extractCommitMessagesWithTasks] at hp
  | cons c cs ih =>
    intro p hp
    rw [extract_cons] at hp
    rcases Finset.mem_union.mp hp with h | h
    · exact commitEntries_wf h
    · exact ih p h

theorem commitEntries_subset_extract {c : Commit} {l : List Commit} (hc : c ∈ l) :
    commitEntries c ⊆ extractCommitMessagesWithTasks l := by
  induction l with
  | nil => simp at hc
  | cons d ds ih =>
    rw [extract_cons]
    rcases List.mem_cons.mp hc with h | h
    · exact h ▸ Finset.subset_union_left
    · exact (ih h).trans Finset.subset_union_right

theorem extract_perm {l l' : List Commit} (h : l.Perm l') :
    extractCommitMessagesWithTasks l = extractCommitMessagesWithTasks l' := by
  induction h with
  | nil => rfl
  | cons x _ ih => rw [extract_cons, extract_cons, ih]
  | swap x y l => rw [extract_cons, extract_cons, extract_cons, extract_cons,
      ← Finset.union_assoc, Finset.union_comm (commitEntries y), Finset.union_assoc]
  | trans _ _ ih1 ih2 => rw [ih1, ih2]

theorem mem_taskSetF {A : Finset (String × String)} {t : String} :
    t ∈ taskSetF A ↔ ∃ k, (k, t) ∈ A := by
  constructor
  · intro h
    obtain ⟨p, hp, hpt⟩ := Finset.mem_image.mp h
    exact ⟨p.1, by rwa [show (p.1, t) = p from Prod.ext rfl hpt.symm]⟩
  · rintro ⟨k, hk⟩
    exact Finset.mem_image.mpr ⟨(k, t), hk, rfl⟩

theorem mem_keySetF {A : Finset (String × String)} {k : String} :
    k ∈ keySetF A ↔ ∃ t, (k, t) ∈ A := by
  constructor
  · intro h
    obtain ⟨p, hp, hpk⟩ := Finset.mem_image.mp h
    exact ⟨p.2, by rwa [show (k, p.2) = p from Prod.ext hpk.symm rfl]⟩
  · rintro ⟨t, ht⟩
    exact Finset.mem_image.mpr ⟨(k, t), ht, rfl⟩

theorem mem_missTasks {A B : Finset (String × String)} {t : String} :
    t ∈ missTasks A B ↔ ∃ k, (k, t) ∈ A ∧ k ∉ keySetF B := by
  constructor
  · intro h
    obtain ⟨p, hp, hpt⟩ := Finset.mem_image.mp h
    obtain ⟨hpA, hpk⟩ := Finset.mem_filter.mp hp
    exact ⟨p.1, by rwa [show (p.1, t) = p from Prod.ext rfl hpt.symm], hpk⟩
  · rintro ⟨k, hk, hkB⟩
    exact Finset.mem_image.mpr ⟨(k, t), Finset.mem_filter.mpr ⟨hk, hkB⟩, rfl⟩

theorem mem_cmF {A B : Finset (String × String)} {t : String} :
    t ∈ completelyMissingF A B ↔ (∃ k, (k, t) ∈ A ∧ k ∉ keySetF B) ∧ t ∉ taskSetF B := by
  rw [completelyMissingF, Finset.mem_filter, mem_missTasks]

theorem mem_pmKeysF {A B : Finset (String × String)} {t : String} :
    t ∈ partlyKeysF A B ↔ (∃ k, (k, t) ∈ A ∧ k ∉ keySetF B) ∧ t ∈ taskSetF B := by
  rw [partlyKeysF, Finset.mem_filter, mem_missTasks]

/-- In well-formed maps a shared key names the same task on both sides. -/
theorem wf_key_unique {A B : Finset (String × String)} (hA : WFIndex A) (hB : WFIndex B)
    {k t t' : String} (h1 : (k, t) ∈ A) (h2 : (k, t') ∈ B) : t = t' := by
  obtain ⟨l1, hk1, hb1⟩ := hA (k, t) h1
  obtain ⟨l2, hk2, hb2⟩ := hB (k, t') h2
  exact keyInj hb1 hb2 (hk1.symm.trans hk2)

/-- The completely-missing classification of _analyze_version_tasks agrees
with the plain task-set difference: a task of the old map with every key
shared would be found under the same task id in the new map. -/
theorem cmF_eq_sdiff {A B : Finset (String × String)} (hA : WFIndex A) (hB : WFIndex B) :
    completelyMissingF A B = taskSetF A \ taskSetF B := by
  ext t
  constructor
  · intro h
    obtain ⟨⟨k, hk, -⟩, hnb⟩ := mem_cmF.mp h
    exact Finset.mem_sdiff.mpr ⟨mem_taskSetF.mpr ⟨k, hk⟩, hnb⟩
  · intro h
    obtain ⟨hta, hnb⟩ := Finset.mem_sdiff.mp h
    obtain ⟨k, hk⟩ := mem_taskSetF.mp hta
    refine mem_cmF.mpr ⟨⟨k, hk, fun hkB => ?_⟩, hnb⟩
    obtain ⟨t', ht'⟩ := mem_keySetF.mp hkB
    exact hnb (mem_taskSetF.mpr ⟨k, by rwa [wf_key_unique hA hB hk ht']⟩)

/-- The partial-miss detail recorded for a task is exactly its old keys
that are absent from the new key set. -/
theorem detailF_eq {A B : Finset (String × String)} (t : String) :
    detailF A B t = taskKeysF A t \ keySetF B := by
  ext k
  simp only [detailF, taskKeysF, missPairs, Finset.mem_sdiff, Finset.mem_image,
    Finset.mem_filter]
  constructor
  · rintro ⟨p, ⟨⟨hpA, hpk⟩, hpt⟩, rfl⟩
    exact ⟨⟨p, ⟨hpA, hpt⟩, rfl⟩, hpk⟩
  · rintro ⟨⟨p, ⟨hpA, hpt⟩, rfl⟩, hpk⟩
    exact ⟨p, ⟨⟨hpA, hpk⟩, hpt⟩, rfl⟩

theorem pmKeysF_subset_left {A B : Finset (String × String)} :
    partlyKeysF A B ⊆ taskSetF A := by
  intro t ht
  obtain ⟨⟨k, hk, -⟩, -⟩ := mem_pmKeysF.mp ht
  exact mem_taskSetF.mpr ⟨k, hk⟩

theorem pmKeysF_subset_right {A B : Finset (String × String)} :
    partlyKeysF A B ⊆ taskSetF B := by
  intro t ht
  exact (mem_pmKeysF.mp ht).2

theorem keys_of_pairmap (S : Finset String) (f : String → Finset String) :
    (S.image (fun t => (t, f t))).image Prod.fst = S := by
  rw [Finset.image_image]
  exact Finset.image_id

/-- The binary search never reports more than its initial upper bound. -/
theorem bsearchGo_bound (f : Int → List Commit) (B : Int) :
    ∀ (fuel : Nat) (left right lv : Int), lv ≤ B → right ≤ B →
      bsearchGo f fuel left right lv ≤ B := by
  intro fuel
  induction fuel with
  | zero => intro l r lv h1 _; simpa [bsearchGo] using h1
  | succ n ih =>
    intro l r lv h1 h2
    simp only [bsearchGo]
    by_cases hlr : l ≤ r
    · rw [if_pos hlr]
      by_cases hne : f ((l + r) / 2) ≠ []
      · rw [if_pos hne]
        exact ih _ _ _ (by omega) h2
      · rw [if_neg hne]
        exact ih _ _ _ h1 (by omega)
    · rw [if_neg hlr]
      exact h1

/-- Correctness of the binary-search loop on a monotone page source: when
pages 1..K are exactly the non-empty ones, the loop returns the largest
in-window page that is at most K, or the incoming candidate when the
window holds none. -/
theorem bsearchGo_eq (f : Int → List Commit) (K : Int)
    (hf : ∀ i : Int, 1 ≤ i → (f i ≠ [] ↔ i ≤ K)) :
    ∀ (fuel : Nat) (left right lv : Int), 1 ≤ left → (right + 1 - left).toNat < fuel →
      bsearchGo f fuel left right lv =
        if left ≤ K ∧ left ≤ right then min K right else lv := by
  intro fuel
  induction fuel with
  | zero => intro l r lv _ h2; omega
  | succ n ih =>
    intro l r lv hl hfuel
    simp only [bsearchGo]
    by_cases hlr : l ≤ r
    · rw [if_pos hlr]
      by_cases hne : f ((l + r) / 2) ≠ []
      · rw [if_pos hne]
        have hmidK : (l + r) / 2 ≤ K := (hf _ (by omega)).mp hne
        rw [ih ((l + r) / 2 + 1) r ((l + r) / 2) (by omega) (by omega)]
        rw [if_pos (⟨by omega, hlr⟩ : l ≤ K ∧ l ≤ r)]
        by_cases h2 : (l + r) / 2 + 1 ≤ K ∧ (l + r) / 2 + 1 ≤ r
        · rw [if_pos h2]
        · rw [if_neg h2]
          omega
      · rw [if_neg hne]
        have hmidK : ¬ ((l + r) / 2 ≤ K) := fun hK => hne ((hf _ (by omega)).mpr hK)
        rw [ih l ((l + r) / 2 - 1) lv hl (by omega)]
        by_cases h2 : l ≤ K ∧ l ≤ (l + r) / 2 - 1
        · rw [if_pos h2, if_pos (⟨h2.1, by omega⟩ : l ≤ K ∧ l ≤ r)]
          omega
        · rw [if_neg h2, if_neg (by omega : ¬ (l ≤ K ∧ l ≤ r))]
    · rw [if_neg hlr, if_neg (by omega : ¬ (l ≤ K ∧ l ≤ r))]

/-- Ceiling-division characterization of the pages a stub ref fills. -/
theorem ceil_div_iff (n P m : Nat) (hP : 0 < P) (hm : 1 ≤ m) :
    (m - 1) * P < n ↔ m ≤ (n + P - 1) / P := by
  rw [Nat.le_div_iff_mul_le hP]
  obtain ⟨q, rfl⟩ : ∃ q, m = q + 1 := ⟨m - 1, by omega⟩
  have h : (q + 1) * P = q * P + P := by ring
  rw [h]
  simp only [Nat.add_sub_cancel]
  omega

/-- The stub source's page i is non-empty exactly when i is at most the
ceiling of n / P. -/
theorem stub_nonempty_iff (n P : Nat) (hP : 0 < P) (i : Int) (hi : 1 ≤ i) :
    stubFetchPage n P i ≠ [] ↔ i ≤ ((n + P - 1) / P : Nat) := by
  unfold stubFetchPage stubCount
  rw [if_neg (by omega : ¬ i ≤ 0)]
  rw [ne_eq, List.replicate_eq_nil_iff]
  have hiff := ceil_div_iff n P i.toNat hP (by omega)
  constructor
  · intro h
    have : (i.toNat - 1) * P < n := by omega
    have := hiff.mp this
    omega
  · intro h
    have : i.toNat ≤ (n + P - 1) / P := by omega
    have := hiff.mpr this
    omega

/-- The page-count probe on a stub ref of true count n: the ceiling of
n / P, capped at the 500-page search window. -/
theorem detectTotalPages_stub (n P : Nat) (hP : 0 < P) :
    detectTotalPages (stubFetchPage n P) P = min (((n + P - 1) / P : Nat) : Int) 500 := by
  have hrep : stubFetchPage n P 1 = List.replicate (min P n) dummyCommit := by
    simp [stubFetchPage, stubCount]
  simp only [detectTotalPages]
  rw [hrep]
  by_cases hn0 : n = 0
  · subst hn0
    rw [if_pos (by simp)]
    have hd : (0 + P - 1) / P = 0 := Nat.div_eq_of_lt (by omega)
    rw [hd]
    simp
  · by_cases hnP : n < P
    · rw [if_neg (by simp [List.replicate_eq_nil_iff]; omega)]
      rw [List.length_replicate, if_pos (by omega)]
      have h1 : 1 ≤ (n + P - 1) / P := (ceil_div_iff n P 1 hP le_rfl).mp (by omega)
      have h2 : (n + P - 1) / P < 2 := by
        by_contra hc
        have := (ceil_div_iff n P 2 hP (by omega)).mpr (by omega)
        omega
      omega
    · rw [if_neg (by simp [List.replicate_eq_nil_iff]; omega)]
      rw [List.length_replicate, if_neg (by omega)]
      rw [bsearchGo_eq (stubFetchPage n P) (((n + P - 1) / P : Nat) : Int)
        (fun i hi => stub_nonempty_iff n P hP i hi) 501 1 500 1 (by norm_num) (by norm_num)]
      have h1 : 1 ≤ (n + P - 1) / P := (ceil_div_iff n P 1 hP le_rfl).mp (by omega)
      rw [if_pos (⟨by omega, by norm_num⟩ : (1 : Int) ≤ (((n + P - 1) / P : Nat) : Int) ∧ (1 : Int) ≤ 500)]

/-- The v2 probe never reports more than 500 pages, whatever the source
answers. -/
theorem detectTotalPages_le_500 (f : Int → List Commit) (P : Nat) :
    detectTotalPages f P ≤ 500 := by
  simp only [detectTotalPages]
  by_cases h1 : f 1 = []
  · rw [if_pos h1]; norm_num
  · rw [if_neg h1]
    by_cases h2 : (f 1).length < P
    · rw [if_pos h2]; norm_num
    · rw [if_neg h2]
      exact bsearchGo_bound f 500 501 1 500 1 (by norm_num) (by norm_num)

/-- The optimized probe never reports more than 1000 pages. -/
theorem findLastPage_le_1000 (respond : Int → HttpResult) :
    findLastPage respond ≤ 1000 :=
  bsearchGo_bound (okCommits respond) 1000 1001 1 1000 1 (by norm_num) (by norm_num)

/-- Length of a concurrent fetch over a page window: at most one full page
per page number. -/
theorem fetchAllPages_length_le (f : Int → List Commit) (P : Nat) (tp : Int)
    (hf : ∀ p, (f p).length ≤ P) :
    (fetchAllPagesConcurrent f tp).length ≤ tp.toNat * P := by
  unfold fetchAllPagesConcurrent intPages
  rw [List.length_flatten, List.map_map, List.map_map]
  have hb : ∀ x ∈ (List.range tp.toNat).map (List.length ∘ f ∘ fun (i : Nat) => (i : Int) + 1),
      x ≤ P := by
    intro x hx
    obtain ⟨i, -, rfl⟩ := List.mem_map.mp hx
    exact hf _
  have := List.sum_le_card_nsmul _ P hb
  simpa [List.length_range, mul_comm, Function.comp] using this

/-- Sum of page lengths of the stub source over an initial page window
that the true history fills completely. -/
theorem stub_sum_lengths (n P : Nat) : ∀ (m : Nat), m * P ≤ n →
    ((List.range m).map (fun (i : Nat) => (stubFetchPage n P ((i : Int) + 1)).length)).sum
      = m * P := by
  intro m
  induction m with
  | zero => simp
  | succ k ih =>
    intro h
    rw [Nat.succ_mul] at h
    rw [List.range_succ, List.map_append, List.sum_append]
    rw [ih (by omega)]
    have htn : ((k : Int) + 1).toNat = k + 1 := by omega
    have hlen : (stubFetchPage n P ((k : Int) + 1)).length = P := by
      simp only [stubFetchPage, stubCount, List.length_replicate]
      rw [if_neg (by omega), htn]
      simp only [Nat.add_sub_cancel]
      omega
    rw [Nat.succ_mul]
    simp [hlen]

/-- A stub history beyond the 500-page window is truncated: the full fetch
returns exactly 500 pages of commits, fewer than the true count. -/
theorem getAllTag_stub_trunc (n P : Nat) (hP : 0 < P) (h : 500 * P < n) :
    (getAllTagCommitsConcurrent (stubFetchPage n P) P).length = 500 * P := by
  have hK : 501 ≤ (n + P - 1) / P := (ceil_div_iff n P 501 hP (by omega)).mp (by omega)
  have hprobe : detectTotalPages (stubFetchPage n P) P = 500 := by
    rw [detectTotalPages_stub n P hP]
    omega
  unfold getAllTagCommitsConcurrent
  rw [hprobe, if_neg (by norm_num)]
  unfold fetchAllPagesConcurrent intPages
  rw [List.length_flatten, List.map_map, List.map_map]
  have h500 : (500 : Int).toNat = 500 := rfl
  rw [h500]
  have := stub_sum_lengths n P 500 (by omega)
  simpa using this

theorem missTasks_subset_left {A B : Finset (String × String)} :
    missTasks A B ⊆ taskSetF A := by
  intro t ht
  obtain ⟨k, hk, -⟩ := mem_missTasks.mp ht
  exact mem_taskSetF.mpr ⟨k, hk⟩

/-- When both fetches returned commits, _analyze_version_tasks lands in its
success branch and its result record is the classification computed from
the two extracted commit-task maps. -/
theorem analyze_success_eq (oc nc : List Commit) (ho : ¬ oc = []) (hn : ¬ nc = []) :
    analyzeVersionTasks oc nc =
      { old_tasks := taskSetF (extractCommitMessagesWithTasks oc),
        new_tasks := taskSetF (extractCommitMessagesWithTasks nc),
        missing_tasks :=
          completelyMissingF (extractCommitMessagesWithTasks oc)
              (extractCommitMessagesWithTasks nc) ∪
            partlyKeysF (extractCommitMessagesWithTasks oc) (extractCommitMessagesWithTasks nc),
        new_features :=
          (taskSetF (extractCommitMessagesWithTasks nc) \
              taskSetF (extractCommitMessagesWithTasks oc)).image
              (fun t => (t, taskKeysF (extractCommitMessagesWithTasks nc) t)) ∪
            (partlyKeysF (extractCommitMessagesWithTasks nc)
                (extractCommitMessagesWithTasks oc)).image
              (fun t => (t, detailF (extractCommitMessagesWithTasks nc)
                (extractCommitMessagesWithTasks oc) t)),
        common_tasks :=
          taskSetF (extractCommitMessagesWithTasks oc) ∩
            taskSetF (extractCommitMessagesWithTasks nc),
        analysis := "success",
        error := none,
        detailed_analysis := some
          { completely_missing_tasks :=
              completelyMissingF (extractCommitMessagesWithTasks oc)
                (extractCommitMessagesWithTasks nc),
            partly_missing_tasks :=
              (partlyKeysF (extractCommitMessagesWithTasks oc)
                  (extractCommitMessagesWithTasks nc)).image
                (fun t => (t, detailF (extractCommitMessagesWithTasks oc)
                  (extractCommitMessagesWithTasks nc) t)),
            completely_new_tasks :=
              taskSetF (extractCommitMessagesWithTasks nc) \
                taskSetF (extractCommitMessagesWithTasks oc),
            partly_new_tasks :=
              (partlyKeysF (extractCommitMessagesWithTasks nc)
                  (extractCommitMessagesWithTasks oc)).image
                (fun t => (t, detailF (extractCommitMessagesWithTasks nc)
                  (extractCommitMessagesWithTasks oc) t)),
            missing_commit_messages :=
              keySetF (extractCommitMessagesWithTasks oc) \
                keySetF (extractCommitMessagesWithTasks nc),
            new_commit_messages :=
              keySetF (extractCommitMessagesWithTasks nc) \
                keySetF (extractCommitMessagesWithTasks oc) } } := by
  unfold analyzeVersionTasks
  rw [if_neg (fun h => ho h.1), if_neg ho, if_neg hn]


/-- C1: the claim as stated fails on the code.  With the old ref holding
GALAXY-1 step one and step two and the new ref holding step one and step
three, the reported missing set is GALAXY-1 although the task-set
difference is empty, and the missing and new sets intersect. -/
theorem c1_counterexample :
    ¬ ((detectMissingTasks [cmG1, cmG1b] [cmG1, cmG1c]).missing_tasks =
          (detectMissingTasks [cmG1, cmG1b] [cmG1, cmG1c]).old_tasks \
            (detectMissingTasks [cmG1, cmG1b] [cmG1, cmG1c]).new_tasks
        ∧ newFeatureKeys (detectMissingTasks [cmG1, cmG1b] [cmG1, cmG1c]) =
          (detectMissingTasks [cmG1, cmG1b] [cmG1, cmG1c]).new_tasks \
            (detectMissingTasks [cmG1, cmG1b] [cmG1, cmG1c]).old_tasks
        ∧ (detectMissingTasks [cmG1, cmG1b] [cmG1, cmG1c]).common_tasks =
          (detectMissingTasks [cmG1, cmG1b] [cmG1, cmG1c]).old_tasks ∩
            (detectMissingTasks [cmG1, cmG1b] [cmG1, cmG1c]).new_tasks
        ∧ (detectMissingTasks [cmG1, cmG1b] [cmG1, cmG1c]).missing_tasks ∩
            newFeatureKeys (detectMissingTasks [cmG1, cmG1b] [cmG1, cmG1c]) = ∅) := by
  decide

/-- C1 (amended): the reported missing set is the task-set difference
joined with the partially-missing task ids, the reported new set is the
opposite difference joined with the partially-new task ids, the common
set is the intersection, and the overlap of missing and new is exactly
the overlap of the two partial key sets. -/
theorem c1_sets_amended (oc nc : List Commit) (ho : ¬ oc = []) (hn : ¬ nc = []) :
    (detectMissingTasks oc nc).missing_tasks =
      ((detectMissingTasks oc nc).old_tasks \ (detectMissingTasks oc nc).new_tasks) ∪
        partlyKeysF (extractCommitMessagesWithTasks oc) (extractCommitMessagesWithTasks nc)
    ∧ newFeatureKeys (detectMissingTasks oc nc) =
      ((detectMissingTasks oc nc).new_tasks \ (detectMissingTasks oc nc).old_tasks) ∪
        partlyKeysF (extractCommitMessagesWithTasks nc) (extractCommitMessagesWithTasks oc)
    ∧ (detectMissingTasks oc nc).common_tasks =
      (detectMissingTasks oc nc).old_tasks ∩ (detectMissingTasks oc nc).new_tasks
    ∧ (detectMissingTasks oc nc).missing_tasks ∩ newFeatureKeys (detectMissingTasks oc nc) =
      partlyKeysF (extractCommitMessagesWithTasks oc) (extractCommitMessagesWithTasks nc) ∩
        partlyKeysF (extractCommitMessagesWithTasks nc) (extractCommitMessagesWithTasks oc) := by
  have hwfA := extract_wf oc
  have hwfB := extract_wf nc
  unfold detectMissingTasks
  rw [analyze_success_eq oc nc ho hn]
  dsimp only
  rw [newFeatureKeys]
  dsimp only
  rw [Finset.image_union, keys_of_pairmap, keys_of_pairmap]
  rw [cmF_eq_sdiff hwfA hwfB]
  refine ⟨rfl, rfl, rfl, ?_⟩
  ext t
  simp only [Finset.mem_inter, Finset.mem_union, Finset.mem_sdiff]
  constructor
  · rintro ⟨hm | hm, hw | hw⟩
    · exact absurd hw.1 hm.2
    · exact absurd (pmKeysF_subset_left hw) hm.2
    · exact absurd (pmKeysF_subset_left hm) hw.2
    · exact ⟨hm, hw⟩
  · rintro ⟨h1, h2⟩
    exact ⟨Or.inr h1, Or.inr h2⟩

theorem c1_witness :
    ¬ ([cmG1, cmG1b] : List Commit) = []
    ∧ ¬ ([cmG1, cmG1c] : List Commit) = []
    ∧ ((detectMissingTasks [cmG1, cmG1b] [cmG1, cmG1c]).missing_tasks =
        ((detectMissingTasks [cmG1, cmG1b] [cmG1, cmG1c]).old_tasks \
            (detectMissingTasks [cmG1, cmG1b] [cmG1, cmG1c]).new_tasks) ∪
          partlyKeysF (extractCommitMessagesWithTasks [cmG1, cmG1b])
            (extractCommitMessagesWithTasks [cmG1, cmG1c])
      ∧ newFeatureKeys (detectMissingTasks [cmG1, cmG1b] [cmG1, cmG1c]) =
        ((detectMissingTasks [cmG1, cmG1b] [cmG1, cmG1c]).new_tasks \
            (detectMissingTasks [cmG1, cmG1b] [cmG1, cmG1c]).old_tasks) ∪
          partlyKeysF (extractCommitMessagesWithTasks [cmG1, cmG1c])
            (extractCommitMessagesWithTasks [cmG1, cmG1b])
      ∧ (detectMissingTasks [cmG1, cmG1b] [cmG1, cmG1c]).common_tasks =
        (detectMissingTasks [cmG1, cmG1b] [cmG1, cmG1c]).old_tasks ∩
          (detectMissingTasks [cmG1, cmG1b] [cmG1, cmG1c]).new_tasks
      ∧ (detectMissingTasks [cmG1, cmG1b] [cmG1, cmG1c]).missing_tasks ∩
          newFeatureKeys (detectMissingTasks [cmG1, cmG1b] [cmG1, cmG1c]) =
        partlyKeysF (extractCommitMessagesWithTasks [cmG1, cmG1b])
            (extractCommitMessagesWithTasks [cmG1, cmG1c]) ∩
          partlyKeysF (extractCommitMessagesWithTasks [cmG1, cmG1c])
            (extractCommitMessagesWithTasks [cmG1, cmG1b])) :=
  ⟨by decide, by decide,
    c1_sets_amended [cmG1, cmG1b] [cmG1, cmG1c] (by decide) (by decide)⟩

/-- C2: the spec's literal scenario fails on the code because the task
pattern accepts only GALAXY- and OP- identifiers: with the old ref holding
the two PROJ-3 commits and the new ref holding the first one, nothing is
extracted, so PROJ-3 is not recorded as partially missing. -/
theorem c2_counterexample :
    (analyzeVersionTasks [cmP3one, cmP3two] [cmP3one]).missing_tasks = ∅
    ∧ (analyzeVersionTasks [cmP3one, cmP3two] [cmP3one]).detailed_analysis = some
        { completely_missing_tasks := ∅, partly_missing_tasks := ∅,
          completely_new_tasks := ∅, partly_new_tasks := ∅,
          missing_commit_messages := ∅, new_commit_messages := ∅ } := by
  decide

/-- C2 (amended): for every missing task id the classifier records it as
completely missing exactly when it is absent from the new task set, and
otherwise records it as partially missing mapped to exactly the
commit-identity keys present under the old ref and absent under the new
ref; the spec's scenario holds once its identifiers use a recognized
pattern (GALAXY-3 in place of PROJ-3). -/
theorem c2_classify_amended (oc nc : List Commit) (t : String) (d : DetailedAnalysis)
    (hd : (analyzeVersionTasks oc nc).detailed_analysis = some d)
    (ht : t ∈ (analyzeVersionTasks oc nc).missing_tasks) :
    (t ∈ d.completely_missing_tasks ↔ t ∉ (analyzeVersionTasks oc nc).new_tasks)
    ∧ (t ∈ (analyzeVersionTasks oc nc).new_tasks →
        t ∈ d.partly_missing_tasks.image Prod.fst
        ∧ (t, taskKeysF (extractCommitMessagesWithTasks oc) t \
            keySetF (extractCommitMessagesWithTasks nc)) ∈ d.partly_missing_tasks) := by
  by_cases ho : oc = []
  · exfalso
    unfold analyzeVersionTasks at hd
    by_cases hn : nc = []
    · rw [if_pos ⟨ho, hn⟩] at hd
      simp at hd
    · rw [if_neg (fun h => hn h.2), if_pos ho] at hd
      simp at hd
  · by_cases hn : nc = []
    · exfalso
      unfold analyzeVersionTasks at hd
      rw [if_neg (fun h => ho h.1), if_neg ho, if_pos hn] at hd
      simp at hd
    · rw [analyze_success_eq oc nc ho hn] at hd ht ⊢
      dsimp only at hd ht ⊢
      injection hd with hd'
      subst hd'
      dsimp only
      constructor
      · constructor
        · intro hcm
          exact (mem_cmF.mp hcm).2
        · intro hnb
          rcases Finset.mem_union.mp ht with h | h
          · exact h
          · exact absurd (mem_pmKeysF.mp h).2 hnb
      · intro htB
        have hpm : t ∈ partlyKeysF (extractCommitMessagesWithTasks oc)
            (extractCommitMessagesWithTasks nc) := by
          rcases Finset.mem_union.mp ht with h | h
          · exact absurd htB (mem_cmF.mp h).2
          · exact h
        refine ⟨?_, ?_⟩
        · rw [keys_of_pairmap]
          exact hpm
        · rw [← detailF_eq]
          exact Finset.mem_image.mpr ⟨t, hpm, rfl⟩


theorem c2_witness :
    (analyzeVersionTasks [cmG3one, cmG3two] [cmG3one]).detailed_analysis = some c2detail
    ∧ "GALAXY-3" ∈ (analyzeVersionTasks [cmG3one, cmG3two] [cmG3one]).missing_tasks
    ∧ (("GALAXY-3" ∈ c2detail.completely_missing_tasks
        ↔ "GALAXY-3" ∉ (analyzeVersionTasks [cmG3one, cmG3two] [cmG3one]).new_tasks)
      ∧ ("GALAXY-3" ∈ (analyzeVersionTasks [cmG3one, cmG3two] [cmG3one]).new_tasks →
          "GALAXY-3" ∈ c2detail.partly_missing_tasks.image Prod.fst
          ∧ ("GALAXY-3", taskKeysF (extractCommitMessagesWithTasks [cmG3one, cmG3two])
                "GALAXY-3" \ keySetF (extractCommitMessagesWithTasks [cmG3one])) ∈
              c2detail.partly_missing_tasks)) :=
  ⟨by decide, by decide,
    c2_classify_amended [cmG3one, cmG3two] [cmG3one] "GALAXY-3" c2detail
      (by decide) (by decide)⟩

/-- C6: the reported missing set is partitioned by the completely-missing
and partially-missing classifications, and the reported new set by the
completely-new and partially-new classifications. -/
theorem c6_partition (oc nc : List Commit) (d : DetailedAnalysis)
    (hd : (analyzeVersionTasks oc nc).detailed_analysis = some d) :
    d.completely_missing_tasks ∪ d.partly_missing_tasks.image Prod.fst =
        (analyzeVersionTasks oc nc).missing_tasks
    ∧ Disjoint d.completely_missing_tasks (d.partly_missing_tasks.image Prod.fst)
    ∧ d.completely_new_tasks ∪ d.partly_new_tasks.image Prod.fst =
        newFeatureKeys (analyzeVersionTasks oc nc)
    ∧ Disjoint d.completely_new_tasks (d.partly_new_tasks.image Prod.fst) := by
  by_cases ho : oc = []
  · exfalso
    unfold analyzeVersionTasks at hd
    by_cases hn : nc = []
    · rw [if_pos ⟨ho, hn⟩] at hd
      simp at hd
    · rw [if_neg (fun h => hn h.2), if_pos ho] at hd
      simp at hd
  · by_cases hn : nc = []
    · exfalso
      unfold analyzeVersionTasks at hd
      rw [if_neg (fun h => ho h.1), if_neg ho, if_pos hn] at hd
      simp at hd
    · rw [analyze_success_eq oc nc ho hn] at hd ⊢
      dsimp only at hd ⊢
      injection hd with hd'
      subst hd'
      dsimp only
      rw [newFeatureKeys]
      dsimp only
      rw [keys_of_pairmap, keys_of_pairmap, Finset.image_union, keys_of_pairmap,
        keys_of_pairmap]
      refine ⟨rfl, ?_, rfl, ?_⟩
      · rw [Finset.disjoint_left]
        intro t hcm hpm
        exact absurd (mem_pmKeysF.mp hpm).2 (mem_cmF.mp hcm).2
      · rw [Finset.disjoint_left]
        intro t hcn hpn
        exact absurd (pmKeysF_subset_right hpn) (Finset.mem_sdiff.mp hcn).2


theorem c6_witness :
    (analyzeVersionTasks [cmG1, cmG1b] [cmG1, cmG1c]).detailed_analysis = some c6detail
    ∧ (c6detail.completely_missing_tasks ∪ c6detail.partly_missing_tasks.image Prod.fst =
          (analyzeVersionTasks [cmG1, cmG1b] [cmG1, cmG1c]).missing_tasks
      ∧ Disjoint c6detail.completely_missing_tasks
          (c6detail.partly_missing_tasks.image Prod.fst)
      ∧ c6detail.completely_new_tasks ∪ c6detail.partly_new_tasks.image Prod.fst =
          newFeatureKeys (analyzeVersionTasks [cmG1, cmG1b] [cmG1, cmG1c])
      ∧ Disjoint c6detail.completely_new_tasks
          (c6detail.partly_new_tasks.image Prod.fst)) :=
  ⟨by decide, c6_partition [cmG1, cmG1b] [cmG1, cmG1c] c6detail (by decide)⟩


/-- C7: the task-index builder is deterministic, insensitive to commit
order, and insensitive to cherry-pick duplicates: a commit repeating the
task ids and the normalized first line of a commit already in the list
contributes no new entry, so index and task set are unchanged. -/
theorem c7_builder_insensitive :
    (∀ l : List Commit,
      extractCommitMessagesWithTasks l = extractCommitMessagesWithTasks l)
    ∧ (∀ l l' : List Commit, l.Perm l' →
        extractCommitMessagesWithTasks l = extractCommitMessagesWithTasks l')
    ∧ (∀ (l : List Commit) (c c' : Commit), c ∈ l →
        findTasks taskPats (pyStrip c'.message) = findTasks taskPats (pyStrip c.message) →
        pyStrip (upToNewline (pyStrip c'.message)) =
          pyStrip (upToNewline (pyStrip c.message)) →
        extractCommitMessagesWithTasks (l ++ [c']) = extractCommitMessagesWithTasks l
        ∧ extractTasksFromCommits (l ++ [c']) = extractTasksFromCommits l) := by
  refine ⟨fun l => rfl, fun l l' h => extract_perm h, ?_⟩
  intro l c c' hc h1 h2
  have hent : commitEntries c' = commitEntries c := by
    simp only [commitEntries]
    rw [h1, h2]
  have hidx : extractCommitMessagesWithTasks (l ++ [c']) =
      extractCommitMessagesWithTasks l := by
    rw [extract_append, extract_cons]
    simp only [extractCommitMessagesWithTasks, List.foldl_nil]
    rw [Finset.union_empty, hent]
    exact Finset.union_eq_left.mpr (commitEntries_subset_extract hc)
  exact ⟨hidx, by rw [extractTasksFromCommits, hidx]; rfl⟩

theorem c7_witness :
    ([cmG1, cmG1b] : List Commit).Perm [cmG1b, cmG1]
    ∧ extractCommitMessagesWithTasks [cmG1, cmG1b] =
        extractCommitMessagesWithTasks [cmG1b, cmG1]
    ∧ cmG1 ∈ ([cmG1, cmG1b] : List Commit)
    ∧ findTasks taskPats (pyStrip cmG1cp.message) = findTasks taskPats (pyStrip cmG1.message)
    ∧ pyStrip (upToNewline (pyStrip cmG1cp.message)) =
        pyStrip (upToNewline (pyStrip cmG1.message))
    ∧ (extractCommitMessagesWithTasks ([cmG1, cmG1b] ++ [cmG1cp]) =
          extractCommitMessagesWithTasks [cmG1, cmG1b]
        ∧ extractTasksFromCommits ([cmG1, cmG1b] ++ [cmG1cp]) =
          extractTasksFromCommits [cmG1, cmG1b]) :=
  ⟨by decide, c7_builder_insensitive.2.1 [cmG1, cmG1b] [cmG1b, cmG1] (by decide),
    by decide, by decide, by decide,
    c7_builder_insensitive.2.2 [cmG1, cmG1b] cmG1 cmG1cp (by decide) (by decide) (by decide)⟩

/-- C8: the code has no distinct no-data status.  A comparison of two refs
whose commits carry no task ids reports the ordinary success status, the
same status an ordinary comparison with tasks reports. -/
theorem c8_counterexample :
    (analyzeVersionTasks [cmPlain] [cmPlain]).old_tasks = ∅
    ∧ (analyzeVersionTasks [cmPlain] [cmPlain]).new_tasks = ∅
    ∧ (analyzeVersionTasks [cmPlain] [cmPlain]).analysis = "success"
    ∧ (analyzeVersionTasks [cmPlain] [cmPlain]).error = none
    ∧ (analyzeVersionTasks [cmG1] [cmG1]).analysis = "success" := by
  decide

/-- C8 (amended): when both fetches return commits but neither side
contains a task id, the result is all-empty with the ordinary success
status and no error; when both fetches return no commits at all, the
status is the error status both_versions_failed carrying an error
message. -/
theorem c8_empty_amended (oc nc : List Commit) (ho : ¬ oc = []) (hn : ¬ nc = [])
    (hot : extractTasksFromCommits oc = ∅) (hnt : extractTasksFromCommits nc = ∅) :
    (analyzeVersionTasks oc nc).old_tasks = ∅
    ∧ (analyzeVersionTasks oc nc).new_tasks = ∅
    ∧ (analyzeVersionTasks oc nc).missing_tasks = ∅
    ∧ (analyzeVersionTasks oc nc).new_features = ∅
    ∧ (analyzeVersionTasks oc nc).common_tasks = ∅
    ∧ (analyzeVersionTasks oc nc).analysis = "success"
    ∧ (analyzeVersionTasks oc nc).error = none
    ∧ (analyzeVersionTasks [] []).analysis = "both_versions_failed"
    ∧ (analyzeVersionTasks [] []).error ≠ none := by
  have hA : taskSetF (extractCommitMessagesWithTasks oc) = ∅ := hot
  have hB : taskSetF (extractCommitMessagesWithTasks nc) = ∅ := hnt
  rw [analyze_success_eq oc nc ho hn]
  dsimp only
  refine ⟨hA, hB, ?_, ?_, ?_, rfl, rfl, rfl, by decide⟩
  · rw [Finset.union_eq_empty]
    constructor
    · rw [← Finset.subset_empty, ← hA]
      exact fun t ht => missTasks_subset_left (Finset.mem_filter.mp ht).1
    · rw [← Finset.subset_empty, ← hB]
      exact pmKeysF_subset_right
  · rw [Finset.union_eq_empty]
    constructor
    · rw [Finset.image_eq_empty, hB]
      exact Finset.empty_sdiff _
    · rw [Finset.image_eq_empty, ← Finset.subset_empty, ← hB]
      exact pmKeysF_subset_left
  · rw [hA]
    exact Finset.empty_inter _

theorem c8_witness :
    ¬ ([cmPlain] : List Commit) = []
    ∧ extractTasksFromCommits [cmPlain] = ∅
    ∧ ((analyzeVersionTasks [cmPlain] [cmPlain]).old_tasks = ∅
      ∧ (analyzeVersionTasks [cmPlain] [cmPlain]).new_tasks = ∅
      ∧ (analyzeVersionTasks [cmPlain] [cmPlain]).missing_tasks = ∅
      ∧ (analyzeVersionTasks [cmPlain] [cmPlain]).new_features = ∅
      ∧ (analyzeVersionTasks [cmPlain] [cmPlain]).common_tasks = ∅
      ∧ (analyzeVersionTasks [cmPlain] [cmPlain]).analysis = "success"
      ∧ (analyzeVersionTasks [cmPlain] [cmPlain]).error = none
      ∧ (analyzeVersionTasks [] []).analysis = "both_versions_failed"
      ∧ (analyzeVersionTasks [] []).error ≠ none) :=
  ⟨by decide, by decide,
    c8_empty_amended [cmPlain] [cmPlain] (by decide) (by decide) (by decide) (by decide)⟩

/-- C3: the claim as stated fails for histories deeper than the probe's
500-page search window: a stub ref with 50001 commits at page size 100
has 501 pages, but the probe reports 500. -/
theorem c3_counterexample :
    detectTotalPages (stubFetchPage 50001 100) 100 ≠
      (((50001 + 100 - 1) / 100 : Nat) : Int) := by
  decide

/-- C3 (amended): for a ref of true commit count n at page size P, the
probe returns the ceiling of n / P (0 when n = 0) whenever that ceiling
lies within the 500-page search window; in particular it returns 2 for
n = 200, P = 100. -/
theorem c3_probe_ceil_amended (n P : Nat) (hP : 0 < P)
    (hb : (n + P - 1) / P ≤ 500) :
    detectTotalPages (stubFetchPage n P) P = (((n + P - 1) / P : Nat) : Int) := by
  rw [detectTotalPages_stub n P hP]
  omega

theorem c3_witness :
    0 < 100
    ∧ (200 + 100 - 1) / 100 ≤ 500
    ∧ detectTotalPages (stubFetchPage 200 100) 100 = (((200 + 100 - 1) / 100 : Nat) : Int) :=
  ⟨by decide, by decide, c3_probe_ceil_amended 200 100 (by decide) (by decide)⟩

/-- C3 and the boundary case: the ceiling at the exact multiple is 2,
not 3, so the witness above pins the probe to 2. -/
example : (((200 + 100 - 1) / 100 : Nat) : Int) = 2 := by decide

/-- C4: the claim as stated fails on the code.  With an old-ref source of
two full pages and a new-ref source whose second page fails (returns
nothing), the concurrent fetch returns only the surviving commits, the
classification still runs, its status is the plain success with no error
or flag, and the task whose commits sat on the failed page is presented
as missing. -/
theorem c4_counterexample :
    (fun p : Int => if p = 1 then [cmA] else ([] : List Commit)) 2 = []
    ∧ (fun p : Int => if p = 1 then [cmA] else if p = 2 then [cmB] else ([] : List Commit)) 2 ≠ []
    ∧ (analyzeVersionTasks
        (fetchAllPagesConcurrent
          (fun p : Int => if p = 1 then [cmA] else if p = 2 then [cmB] else []) 2)
        (fetchAllPagesConcurrent (fun p : Int => if p = 1 then [cmA] else []) 2)).analysis
      = "success"
    ∧ (analyzeVersionTasks
        (fetchAllPagesConcurrent
          (fun p : Int => if p = 1 then [cmA] else if p = 2 then [cmB] else []) 2)
        (fetchAllPagesConcurrent (fun p : Int => if p = 1 then [cmA] else []) 2)).error
      = none
    ∧ (analyzeVersionTasks
        (fetchAllPagesConcurrent
          (fun p : Int => if p = 1 then [cmA] else if p = 2 then [cmB] else []) 2)
        (fetchAllPagesConcurrent (fun p : Int => if p = 1 then [cmA] else []) 2)).missing_tasks
      = {"GALAXY-2"} := by
  decide

/-- C4 (amended): the concurrent fetch returns only the concatenation of
the pages' commits, with no partial-failure indication of any kind, and
whenever both fetches are non-empty the classification runs and reports
the plain success status with no error, whatever pages failed. -/
theorem c4_no_flag_amended (oldFetch newFetch : Int → List Commit) (tpo tpn : Int)
    (ho : fetchAllPagesConcurrent oldFetch tpo ≠ [])
    (hn : fetchAllPagesConcurrent newFetch tpn ≠ []) :
    fetchAllPagesConcurrent newFetch tpn = ((intPages tpn).map newFetch).flatten
    ∧ (analyzeVersionTasks (fetchAllPagesConcurrent oldFetch tpo)
        (fetchAllPagesConcurrent newFetch tpn)).analysis = "success"
    ∧ (analyzeVersionTasks (fetchAllPagesConcurrent oldFetch tpo)
        (fetchAllPagesConcurrent newFetch tpn)).error = none := by
  refine ⟨rfl, ?_, ?_⟩ <;>
    rw [analyze_success_eq _ _ ho hn]

theorem c4_witness :
    fetchAllPagesConcurrent
        (fun p : Int => if p = 1 then [cmA] else if p = 2 then [cmB] else []) 2 ≠ []
    ∧ fetchAllPagesConcurrent (fun p : Int => if p = 1 then [cmA] else []) 2 ≠ []
    ∧ (fetchAllPagesConcurrent (fun p : Int => if p = 1 then [cmA] else []) 2 =
        ((intPages 2).map (fun p : Int => if p = 1 then [cmA] else [])).flatten
      ∧ (analyzeVersionTasks
          (fetchAllPagesConcurrent
            (fun p : Int => if p = 1 then [cmA] else if p = 2 then [cmB] else []) 2)
          (fetchAllPagesConcurrent (fun p : Int => if p = 1 then [cmA] else []) 2)).analysis
        = "success"
      ∧ (analyzeVersionTasks
          (fetchAllPagesConcurrent
            (fun p : Int => if p = 1 then [cmA] else if p = 2 then [cmB] else []) 2)
          (fetchAllPagesConcurrent (fun p : Int => if p = 1 then [cmA] else []) 2)).error
        = none) :=
  ⟨by decide, by decide,
    c4_no_flag_amended
      (fun p : Int => if p = 1 then [cmA] else if p = 2 then [cmB] else [])
      (fun p : Int => if p = 1 then [cmA] else []) 2 2 (by decide) (by decide)⟩

/-- C5: the claim as stated fails on the code.  The v2 single-page fetch
returns the same empty list for a 404 ref, a 401 credential rejection and
a 200 response with no commits, and the optimized branch-commit entry
point returns the same empty commit list in all three cases, so these
outcomes are not distinguishable by a caller. -/
theorem c5_counterexample :
    fetchSinglePage (fun _ => .status 404) = fetchSinglePage (fun _ => .ok [])
    ∧ fetchSinglePage (fun _ => .status 401) = fetchSinglePage (fun _ => .ok [])
    ∧ (getAllBranchCommitsConcurrent (fun _ _ => .status 404) [] "v1" 200).1 =
        (getAllBranchCommitsConcurrent (fun _ _ => .ok []) [] "v1" 200).1
    ∧ (getAllBranchCommitsConcurrent (fun _ _ => .status 401) [] "v1" 200).1 =
        (getAllBranchCommitsConcurrent (fun _ _ => .ok []) [] "v1" 200).1 := by
  decide

/-- C5 (amended): the v2 single-page fetch collapses 404, auth failure and
an empty page to the same empty list; the optimized paging probe
distinguishes failures (none, covering both 401 and 404 alike) from a ref
with zero commits (a page info with zero pages), but its caller returns
the empty commit list in every one of these cases. -/
theorem c5_outcomes_amended :
    fetchSinglePage (fun _ => .status 404) = []
    ∧ fetchSinglePage (fun _ => .status 401) = []
    ∧ fetchSinglePage (fun _ => .ok []) = []
    ∧ getCommitsPageInfo (fun _ => .status 401) 200 = none
    ∧ getCommitsPageInfo (fun _ => .status 404) 200 = none
    ∧ getCommitsPageInfo (fun _ => .ok []) 200 =
        some { total_pages := 0, total_commits := 0, per_page := 200 }
    ∧ (getAllBranchCommitsConcurrent (fun _ _ => .status 401) [] "v1" 200).1 = []
    ∧ (getAllBranchCommitsConcurrent (fun _ _ => .status 404) [] "v1" 200).1 = []
    ∧ (getAllBranchCommitsConcurrent (fun _ _ => .ok []) [] "v1" 200).1 = [] := by
  decide


/-- C9: no statement of the comparison path clears the request cache, so a
comparison ends with the cache still populated, and a later comparison on
the same manager is served the first comparison's commits: against the
updated source it still reports no new features, although a fresh cache
yields GALAXY-2, and it leaves the cache exactly as the first comparison
left it. -/
theorem c9_stale_cache :
    (detectMissingTasksOptimized c9source1 [] "v1" "v2" 200).2 ≠ ([] : VcCache)
    ∧ (detectMissingTasksOptimized c9source2
        (detectMissingTasksOptimized c9source1 [] "v1" "v2" 200).2 "v1" "v2" 200).1.new_features
      = ∅
    ∧ (detectMissingTasksOptimized c9source2 [] "v1" "v2" 200).1.new_features = {"GALAXY-2"}
    ∧ (detectMissingTasksOptimized c9source2
        (detectMissingTasksOptimized c9source1 [] "v1" "v2" 200).2 "v1" "v2" 200).2
      = (detectMissingTasksOptimized c9source1 [] "v1" "v2" 200).2 := by
  decide

theorem stubFetchPage_length_le (n P : Nat) (p : Int) :
    (stubFetchPage n P p).length ≤ P := by
  unfold stubFetchPage stubCount
  rw [List.length_replicate]
  split <;> omega

/-- C10: the v2 probe is capped at 500 pages and the optimized probe at
1000; with every page at most the page size, a full fetch returns at most
500 pages of commits, and a stub ref deeper than the cap is silently
truncated: the fetch returns exactly the cap's worth of commits, fewer
than the true count. -/
theorem c10_bounds (f : Int → List Commit) (respond : Int → HttpResult) (P n : Nat)
    (hP : 0 < P) (hf : ∀ p, (f p).length ≤ P) (hn : 500 * P < n) :
    detectTotalPages f P ≤ 500
    ∧ findLastPage respond ≤ 1000
    ∧ (getAllTagCommitsConcurrent f P).length ≤ 500 * P
    ∧ (getAllTagCommitsConcurrent (stubFetchPage n P) P).length = 500 * P
    ∧ (getAllTagCommitsConcurrent (stubFetchPage n P) P).length < n := by
  refine ⟨detectTotalPages_le_500 f P, findLastPage_le_1000 respond, ?_,
    getAllTag_stub_trunc n P hP hn, ?_⟩
  · unfold getAllTagCommitsConcurrent
    by_cases h0 : detectTotalPages f P = 0
    · rw [if_pos h0]
      simp
    · rw [if_neg h0]
      have h1 := fetchAllPages_length_le f P (detectTotalPages f P) hf
      have h2 : (detectTotalPages f P).toNat ≤ 500 := by
        have := detectTotalPages_le_500 f P
        omega
      calc (fetchAllPagesConcurrent f (detectTotalPages f P)).length
          ≤ (detectTotalPages f P).toNat * P := h1
        _ ≤ 500 * P := Nat.mul_le_mul_right P h2
  · rw [getAllTag_stub_trunc n P hP hn]
    exact hn

theorem c10_witness :
    0 < 100
    ∧ (∀ p : Int, (stubFetchPage 50001 100 p).length ≤ 100)
    ∧ 500 * 100 < 50001
    ∧ (detectTotalPages (stubFetchPage 50001 100) 100 ≤ 500
      ∧ findLastPage (fun _ => .ok []) ≤ 1000
      ∧ (getAllTagCommitsConcurrent (stubFetchPage 50001 100) 100).length ≤ 500 * 100
      ∧ (getAllTagCommitsConcurrent (stubFetchPage 50001 100) 100).length = 500 * 100
      ∧ (getAllTagCommitsConcurrent (stubFetchPage 50001 100) 100).length < 50001) :=
  ⟨by decide, fun p => stubFetchPage_length_le 50001 100 p, by decide,
    c10_bounds (stubFetchPage 50001 100) (fun _ => .ok []) 100 50001 (by decide)
      (fun p => stubFetchPage_length_le 50001 100 p) (by decide)⟩
